import Mathlib

/-!
Verification of the training orchestrator (src/train/main.py) and the
Mahalanobis statistics aggregator (src/eval/mahalanobis.py) of the
Real_Time_Anomaly_Segmentation_For_Road_Scenes repository.

Tensors are shallowly embedded: one-dimensional weight tensors are lists of
rationals; per-pixel feature vectors of the statistics program are functions
from channel index to rationals.  Code that can raise a Python exception is
embedded into the Except monad.
-/

namespace Spec2Proof

/-! ### String helpers

These mirror the Python string operations the repository uses on state-dict
keys: the substring test (the Python in operator), startswith, taking the
last component of split (name.split(pat)[-1]), and replace-all
(key.replace(pat, "")).  All are structural recursions so that concrete
instances reduce inside the kernel. -/

def toChars (s : String) : List Char := s.data

def ofChars (cs : List Char) : String := String.mk cs

def charsPrefixOf : List Char → List Char → Bool
  | [], _ => true
  | _ :: _, [] => false
  | a :: as, b :: bs => a == b && charsPrefixOf as bs

def charsContains (pat : List Char) : List Char → Bool
  | [] => pat.isEmpty
  | c :: cs => charsPrefixOf pat (c :: cs) || charsContains pat cs

def strContains (s pat : String) : Bool := charsContains (toChars pat) (toChars s)

def strStartsWith (s pat : String) : Bool := charsPrefixOf (toChars pat) (toChars s)

def afterFirstOccur (pat : List Char) : List Char → Option (List Char)
  | [] => none
  | c :: cs =>
    if charsPrefixOf pat (c :: cs) then some (List.drop pat.length (c :: cs))
    else afterFirstOccur pat cs

def afterLastAux (pat : List Char) : Nat → List Char → List Char
  | 0, s => s
  | fuel + 1, s =>
    match afterFirstOccur pat s with
    | none => s
    | some rest => afterLastAux pat fuel rest

/-- Python name.split(pat)[-1]: the substring after the last occurrence of
pat (the whole string when pat does not occur). -/
def splitLast (s pat : String) : String :=
  ofChars (afterLastAux (toChars pat) (toChars s).length (toChars s))

def removeAllAux (pat : List Char) : Nat → List Char → List Char
  | 0, s => s
  | _ + 1, [] => []
  | fuel + 1, c :: cs =>
    if charsPrefixOf pat (c :: cs) then removeAllAux pat fuel (List.drop pat.length (c :: cs))
    else c :: removeAllAux pat fuel cs

/-- Python key.replace(pat, ""): remove every (non-overlapping, left-to-right)
occurrence of pat. -/
def strRemoveAll (s pat : String) : String :=
  ofChars (removeAllAux (toChars pat) (toChars s).length (toChars s))

/-- Concatenation of a list of lists (the flattened pixel or label stream
used on the specification side of the claims). -/
def concatAll {α : Type} : List (List α) → List α
  | [] => []
  | l :: ls => l ++ concatAll ls

namespace Train

/-! ### src/train/main.py -/

/-- A named-weight mapping (a PyTorch state dict): an association list from
parameter name to a one-dimensional tensor of rationals.  Python dict
iteration order is insertion order, which list order models. -/
abbrev StateDict := List (String × List ℚ)

def sdFind : StateDict → String → Option (List ℚ)
  | [], _ => none
  | (k, v) :: rest, name => if k == name then some v else sdFind rest name

def sdUpdate : StateDict → String → List ℚ → StateDict
  | [], _, _ => []
  | (k, v) :: rest, name, newv =>
    if k == name then (k, newv) :: rest else (k, v) :: sdUpdate rest name newv

/-- torch Tensor.copy_ for one-dimensional tensors: the source must be
broadcastable to the destination (same length, or a singleton that is
expanded); otherwise a RuntimeError is raised. -/
def copyTensor (dst src : List ℚ) : Except String (List ℚ) :=
  if src.length = dst.length then Except.ok src
  else if src.length = 1 then Except.ok (List.replicate dst.length (src.headD 0))
  else Except.error "RuntimeError: size of tensor a must match size of tensor b"

/-- The final/output-layer name convention of load_my_state_dict in
src/train/main.py line 513: the name contains one of the three conv_out
patterns. -/
def isOutputLayerName (name : String) : Bool :=
  strContains name "conv_out.conv_out" || strContains name "conv_out16.conv_out" ||
    strContains name "conv_out32.conv_out"

/-- One iteration of the loop of load_my_state_dict (src/train/main.py lines
496-518) over a single (name, param) item of the source state dict.  Note
that in the exact-name branch a size mismatch is printed (line 512) but not
skipped: execution falls through to the copy. -/
def loadStep (own : StateDict) (item : String × List ℚ) : Except String StateDict :=
  match sdFind own item.1 with
  | none =>
    if strStartsWith item.1 "module." then
      match sdFind own (splitLast item.1 "module.") with
      | none => Except.ok own
      | some tgt =>
        if tgt.length ≠ item.2.length then Except.ok own
        else
          match copyTensor tgt item.2 with
          | Except.error e => Except.error e
          | Except.ok v => Except.ok (sdUpdate own (splitLast item.1 "module.") v)
    else Except.ok own
  | some tgt =>
    if isOutputLayerName item.1 then
      if item.2.length ≤ tgt.length then
        match copyTensor tgt (item.2 ++ List.replicate (tgt.length - item.2.length) 0) with
        | Except.error e => Except.error e
        | Except.ok v => Except.ok (sdUpdate own item.1 v)
      else Except.error "RuntimeError: slice assignment size mismatch"
    else
      match copyTensor tgt item.2 with
      | Except.error e => Except.error e
      | Except.ok v => Except.ok (sdUpdate own item.1 v)

/-- load_my_state_dict of src/train/main.py lines 492-519: fold the per-item
step over the source items in order; Python exceptions abort the fold. -/
def load_my_state_dict (own source : StateDict) : Except String StateDict :=
  source.foldlM loadStep own

/-- The dictionary saved by save_checkpoint (src/train/main.py lines
393-410), restricted to the fields the claims are about.  The optimizer
state is an opaque blob. -/
structure Checkpoint where
  epoch : Nat
  state_dict : StateDict
  best_acc : ℚ
  optimizerState : Nat

/-- The two checkpoint files of a run: the rolling one (checkpoint.pth.tar)
and the best one (model_best.pth.tar). -/
structure SaveState where
  rolling : Option Checkpoint
  best : Option Checkpoint

/-- save_checkpoint (src/train/main.py lines 457-461): always overwrite the
rolling file; overwrite the best file only when is_best. -/
def save_checkpoint (state : Checkpoint) (is_best : Bool) (fs : SaveState) : SaveState :=
  { rolling := some state, best := if is_best then some state else fs.best }

/-- average_epoch_loss_val (src/train/main.py line 370): sum of the per-batch
validation losses divided by their number. -/
def average_epoch_loss (losses : List ℚ) : ℚ := losses.sum / (losses.length : ℚ)

/-- The value of the iouVal variable at the end of the validation loop:
initialised to 0 at line 372 and set by getIoU only when doIouVal. -/
def iouValOf (doIouVal : Bool) (computedIoU : ℚ) : ℚ :=
  if doIouVal then computedIoU else 0

/-- current_acc (src/train/main.py lines 380-383): the code branches on
iouVal == 0, not on the doIouVal flag. -/
def current_acc (doIouVal : Bool) (computedIoU : ℚ) (valLosses : List ℚ) : ℚ :=
  if iouValOf doIouVal computedIoU = 0 then - average_epoch_loss valLosses
  else iouValOf doIouVal computedIoU

/-- Epoch-end checkpoint policy (src/train/main.py lines 384-410): is_best is
the strict comparison current_acc > best_acc, best_acc becomes the max, the
saved dictionary stores epoch + 1 and the updated best_acc, and
save_checkpoint is called with is_best. -/
def epochEndCheckpoint (acc best_acc : ℚ) (epoch : Nat) (weights : StateDict)
    (opt : Nat) (fs : SaveState) : ℚ × SaveState :=
  let is_best : Bool := decide (best_acc < acc)
  let newBest : ℚ := max acc best_acc
  let st : Checkpoint :=
    { epoch := epoch + 1, state_dict := weights, best_acc := newBest, optimizerState := opt }
  (newBest, save_checkpoint st is_best fs)

/-- The local variables of train() that the resume block touches.  The
optimizer local is an Option: none models a Python local that has not been
assigned yet (reading it raises UnboundLocalError). -/
structure TrainLocals where
  start_epoch : Nat
  best_acc : ℚ
  model_weights : StateDict
  optimizer : Option Nat

/-- The key rewriting of src/train/main.py line 182:
key.replace("module.", "") applied to every key of the checkpoint state
dict. -/
def stripModuleKeys (sd : StateDict) : StateDict :=
  sd.map (fun kv => (strRemoveAll kv.1 "module.", kv.2))

/-- Straight-line embedding of the prologue of train() (src/train/main.py
lines 171-210): initialise start_epoch and best_acc, run the resume block
(lines 172-187), then create the optimizer (lines 204-210).  Inside the
resume block, line 185 reads the local variable optimizer, which at that
point has not been assigned (it is only assigned at lines 204-210), so
Python raises UnboundLocalError there. -/
def trainPrologue (resume : Bool) (ckpt : Option Checkpoint) (initWeights : StateDict) :
    Except String TrainLocals :=
  let locals0 : TrainLocals :=
    { start_epoch := 1, best_acc := 0, model_weights := initWeights, optimizer := none }
  let afterResume : Except String TrainLocals :=
    if resume then
      match ckpt with
      | none => Except.error "Error: resume option was used but checkpoint was not found in folder"
      | some ck =>
        let locals1 :=
          { locals0 with start_epoch := ck.epoch, model_weights := stripModuleKeys ck.state_dict }
        match locals1.optimizer with
        | none => Except.error "UnboundLocalError: local variable optimizer referenced before assignment"
        | some _ =>
          Except.ok { locals1 with optimizer := some ck.optimizerState, best_acc := ck.best_acc }
    else Except.ok locals0
  match afterResume with
  | Except.error e => Except.error e
  | Except.ok locals2 => Except.ok { locals2 with optimizer := some 0 }

/-- Value of the step variable after the validation enumerate loop: the index
of the last validation batch. -/
def lastEnumIndex (numBatches : Nat) : Nat := numBatches - 1

/-- The periodic-snapshot condition of src/train/main.py line 428:
args.epochs_save > 0 and step > 0 and step % args.epochs_save == 0.  The
variable step here is the leftover index from the validation loop; the
epoch number does not occur in the condition. -/
def epochs_save_condition (epochs_save step : Nat) : Bool :=
  decide (0 < epochs_save) && decide (0 < step) && (step % epochs_save == 0)

/-- Whether the numbered model snapshot is written at the end of an epoch,
as a function of the configured interval and the number of validation
batches (which determines the leftover step value).  The epoch index is not
an input because the code never consults it. -/
def snapshot_saved (epochs_save numValBatches : Nat) : Bool :=
  epochs_save_condition epochs_save (lastEnumIndex numValBatches)

/-- The per-class pixel histogram of calculate_class_weights
(src/train/main.py lines 67-78), projected at class k: the per-batch
bincount entries for k are accumulated over the loader. -/
def class_count (batches : List (List Nat)) (k : Nat) : Nat :=
  batches.foldl (fun acc b => acc + b.count k) 0

/-- The total pixel counter of calculate_class_weights (line 78). -/
def total_pixels (batches : List (List Nat)) : Nat :=
  batches.foldl (fun acc b => acc + b.length) 0

/-- calculate_class_weights (src/train/main.py lines 47-84), projected at
class k: 1 / ln(c + count_k / total). -/
noncomputable def calculate_class_weights (batches : List (List Nat)) (c : ℝ) (k : Nat) : ℝ :=
  1 / Real.log (c + (class_count batches k : ℝ) / (total_pixels batches : ℝ))

end Train

namespace Mahalanobis

/-! ### src/eval/mahalanobis.py -/

abbrev NUM_CLASSES : Nat := 19

/-- A per-pixel feature vector: the model output restricted to the first
NUM_CLASSES channels (line 114). -/
abbrev Vec := Fin NUM_CLASSES → ℚ

/-- A pixel of an image: its ground-truth label and its feature vector. -/
abbrev Pixel := Nat × Vec

abbrev Image := List Pixel

/-- Per-image accumulation for class c (lines 119-124): the sum over pixels
whose label equals c of their feature vectors,
torch.sum(result[:, mask], dim=1). -/
def maskedSum (img : Image) (c : Nat) : Vec :=
  img.foldl (fun acc p => if p.1 == c then (fun i => acc i + p.2 i) else acc) (fun _ => 0)

/-- Per-image pixel counter for class c (line 127): torch.sum(mask). -/
def maskCount (img : Image) (c : Nat) : Nat :=
  img.foldl (fun n p => if p.1 == c then n + 1 else n) 0

/-- Row c of the sum_per_class accumulator after the full dataset pass
(lines 99 and 124): per-class updates are independent, so the row equals
the fold of the per-image masked sums. -/
def sum_per_class (imgs : List Image) (c : Nat) : Vec :=
  imgs.foldl (fun acc img => fun i => acc i + maskedSum img c i) (fun _ => 0)

/-- Entry c of pixel_count_per_class after the full pass (lines 100, 127). -/
def pixel_count_per_class (imgs : List Image) (c : Nat) : Nat :=
  imgs.foldl (fun n img => n + maskCount img c) 0

/-- Finalisation of the mean pass (lines 143-146): divide class c by its
pixel count only when the count is positive; otherwise the accumulated sum
is kept untouched. -/
def meanPerClass (imgs : List Image) (c : Nat) : Vec :=
  if 0 < pixel_count_per_class imgs c then
    fun i => sum_per_class imgs c i / (pixel_count_per_class imgs c : ℚ)
  else sum_per_class imgs c

/-- Entry (i, j) of centered @ centered.T for class c of one image (lines
133-138): the sum over pixels labeled c of the product of the i-th and j-th
centered feature components, where centering subtracts
pre_computed_mean[c]. -/
def classScatter (mean : Nat → Vec) (img : Image) (c : Nat) (i j : Fin NUM_CLASSES) : ℚ :=
  ((img.filter (fun p => p.1 == c)).map
    (fun p => (p.2 i - mean c i) * (p.2 j - mean c j))).sum

/-- The contribution of one image to cov_matrix: the inner loop over classes
(for c in range(NUM_CLASSES), line 130) accumulating into the single shared
matrix. -/
def imageScatter (mean : Nat → Vec) (img : Image) (i j : Fin NUM_CLASSES) : ℚ :=
  (List.range NUM_CLASSES).foldl (fun acc c => acc + classScatter mean img c i j) 0

/-- The cov_matrix accumulator after the full dataset pass (lines 96,
102-140): the outer loop over images. -/
def covAccum (mean : Nat → Vec) (imgs : List Image) (i j : Fin NUM_CLASSES) : ℚ :=
  imgs.foldl (fun acc img => acc + imageScatter mean img i j) 0

/-- The final covariance matrix (line 153): the accumulator divided by
num_images * 512 * 1024. -/
def cov_matrix (mean : Nat → Vec) (imgs : List Image) (i j : Fin NUM_CLASSES) : ℚ :=
  covAccum mean imgs i j / ((imgs.length : ℚ) * 512 * 1024)

/-- Tensor placement. -/
inductive Device
  | cpu
  | cuda
deriving DecidableEq

/-- The command-line arguments of src/eval/mahalanobis.py the claims are
about. -/
structure Args where
  cpu : Bool
  mean : String

/-- mean_is_computed (line 53): len(args.mean) > 0. -/
def mean_is_computed (a : Args) : Bool := decide (0 < a.mean.length)

inductive Phase
  | meanPass
  | covPass
deriving DecidableEq

/-- The phase the per-image loop body executes (lines 117 and 129): the mean
branch when not mean_is_computed, the covariance branch otherwise. -/
def phase (a : Args) : Phase :=
  if mean_is_computed a then Phase.covPass else Phase.meanPass

/-- Device of the model and hence of result (lines 73-74, 112): cuda unless
the cpu flag is set. -/
def model_device (a : Args) : Device := if a.cpu then Device.cpu else Device.cuda

/-- Device of sum_per_class and pixel_count_per_class (lines 99-100):
"cpu" if args.cpu else "cuda". -/
def acc_device (a : Args) : Device := if a.cpu then Device.cpu else Device.cuda

/-- Device of cov_matrix (line 96): the literal device is cuda, with no
branch on the cpu flag. -/
def cov_matrix_device : Device := Device.cuda

/-- Device of pre_computed_mean (line 63): .cuda() is called
unconditionally. -/
def pre_computed_mean_device : Device := Device.cuda

/-- A binary torch operation between two tensors requires them to live on
the same device; otherwise a RuntimeError is raised. -/
def sameDevice (x y : Device) : Except String Device :=
  if x = y then Except.ok x else Except.error "Expected all tensors to be on the same device"

/-- Device behaviour of one mean-phase loop body (lines 119-127): the
accumulator is combined with the masked model output. -/
def meanPassStep (a : Args) : Except String Device :=
  sameDevice (acc_device a) (model_device a)

/-- Device behaviour of one covariance-phase loop body (lines 130-138):
centering subtracts pre_computed_mean from the masked model output, then
the outer product is added to cov_matrix. -/
def covPassStep (a : Args) : Except String Device :=
  match sameDevice (model_device a) pre_computed_mean_device with
  | Except.error e => Except.error e
  | Except.ok centered => sameDevice cov_matrix_device centered

end Mahalanobis

/-- A two-image fixture (one pixel of class 0 per image, constant feature
vectors 2 and 4) used to witness the mean-pass claim on concrete data. -/
def exImgsC6 : List Mahalanobis.Image :=
  [[((0 : Nat), fun _ => (2 : ℚ))], [((0 : Nat), fun _ => (4 : ℚ))]]

/-! ### Helper lemmas on lists and folds -/

theorem sum_map_zero_q {α : Type} (l : List α) : (l.map fun _ => (0 : ℚ)).sum = 0 := by
  induction l with
  | nil => rfl
  | cons x xs ih => simp [ih]

theorem sum_map_add_q {α : Type} (l : List α) (f g : α → ℚ) :
    (l.map fun x => f x + g x).sum = (l.map f).sum + (l.map g).sum := by
  induction l with
  | nil => simp
  | cons x xs ih =>
    simp [ih]
    ring

theorem sum_swap_q {α β : Type} (l : List α) (m : List β) (g : α → β → ℚ) :
    (l.map fun x => (m.map fun y => g x y).sum).sum =
      (m.map fun y => (l.map fun x => g x y).sum).sum := by
  induction l with
  | nil => simp [sum_map_zero_q]
  | cons x xs ih => simp [ih, sum_map_add_q]

theorem foldl_add_eq_sum_q {α : Type} (f : α → ℚ) (l : List α) :
    ∀ a : ℚ, l.foldl (fun x y => x + f y) a = a + (l.map f).sum := by
  induction l with
  | nil => intro a; simp
  | cons x xs ih =>
    intro a
    simp [ih]
    ring

theorem foldl_add_eq_sum_n {α : Type} (f : α → Nat) (l : List α) :
    ∀ a : Nat, l.foldl (fun x y => x + f y) a = a + (l.map f).sum := by
  induction l with
  | nil => intro a; simp
  | cons x xs ih =>
    intro a
    simp [ih]
    omega

theorem sum_filter_concatAll {α : Type} (L : List (List α)) (q : α → Bool) (g : α → ℚ) :
    (((concatAll L).filter q).map g).sum = (L.map fun l => ((l.filter q).map g).sum).sum := by
  induction L with
  | nil => rfl
  | cons l ls ih => simp [concatAll, List.filter_append, ih]

theorem length_filter_concatAll {α : Type} (L : List (List α)) (q : α → Bool) :
    ((concatAll L).filter q).length = (L.map fun l => (l.filter q).length).sum := by
  induction L with
  | nil => rfl
  | cons l ls ih => simp [concatAll, List.filter_append, ih]

theorem count_concatAll (L : List (List Nat)) (k : Nat) :
    (concatAll L).count k = (L.map fun l => l.count k).sum := by
  induction L with
  | nil => rfl
  | cons l ls ih => simp [concatAll, List.count_append, ih]

theorem length_concatAll {α : Type} (L : List (List α)) :
    (concatAll L).length = (L.map List.length).sum := by
  induction L with
  | nil => rfl
  | cons l ls ih => simp [concatAll, ih]

/-! ### Lemmas about the statistics aggregator -/

theorem maskedSum_aux (c : Nat) (img : Mahalanobis.Image) :
    ∀ (acc : Mahalanobis.Vec) (i : Fin Mahalanobis.NUM_CLASSES),
      (img.foldl (fun acc p => if p.1 == c then (fun i => acc i + p.2 i) else acc) acc) i =
        acc i + ((img.filter fun p => p.1 == c).map fun p => p.2 i).sum := by
  induction img with
  | nil => intro acc i; simp
  | cons p l ih =>
    intro acc i
    simp only [beq_iff_eq] at ih
    by_cases hpc : p.1 = c
    · simp [List.filter_cons, hpc, ih]
      ring
    · simp [List.filter_cons, hpc, ih]

theorem maskedSum_eq (img : Mahalanobis.Image) (c : Nat) (i : Fin Mahalanobis.NUM_CLASSES) :
    Mahalanobis.maskedSum img c i = ((img.filter fun p => p.1 == c).map fun p => p.2 i).sum := by
  have h := maskedSum_aux c img (fun _ => 0) i
  simpa [Mahalanobis.maskedSum] using h

theorem maskCount_aux (c : Nat) (img : Mahalanobis.Image) :
    ∀ n : Nat,
      img.foldl (fun n p => if p.1 == c then n + 1 else n) n =
        n + (img.filter fun p => p.1 == c).length := by
  induction img with
  | nil => intro n; simp
  | cons p l ih =>
    intro n
    simp only [beq_iff_eq] at ih
    by_cases hpc : p.1 = c
    · simp [List.filter_cons, hpc, ih]
      omega
    · simp [List.filter_cons, hpc, ih]

theorem maskCount_eq (img : Mahalanobis.Image) (c : Nat) :
    Mahalanobis.maskCount img c = (img.filter fun p => p.1 == c).length := by
  have h := maskCount_aux c img 0
  simpa [Mahalanobis.maskCount] using h

theorem sum_per_class_aux (c : Nat) (imgs : List Mahalanobis.Image) :
    ∀ (acc : Mahalanobis.Vec) (i : Fin Mahalanobis.NUM_CLASSES),
      (imgs.foldl (fun acc img => fun i => acc i + Mahalanobis.maskedSum img c i) acc) i =
        acc i + (imgs.map fun img => Mahalanobis.maskedSum img c i).sum := by
  induction imgs with
  | nil => intro acc i; simp
  | cons img rest ih =>
    intro acc i
    simp [ih]
    ring

theorem sum_per_class_eq (imgs : List Mahalanobis.Image) (c : Nat)
    (i : Fin Mahalanobis.NUM_CLASSES) :
    Mahalanobis.sum_per_class imgs c i =
      (((concatAll imgs).filter fun p => p.1 == c).map fun p => p.2 i).sum := by
  have h := sum_per_class_aux c imgs (fun _ => 0) i
  rw [sum_filter_concatAll]
  simp only [Mahalanobis.sum_per_class]
  rw [h]
  simp only [maskedSum_eq, zero_add]

theorem pixel_count_eq (imgs : List Mahalanobis.Image) (c : Nat) :
    Mahalanobis.pixel_count_per_class imgs c =
      ((concatAll imgs).filter fun p => p.1 == c).length := by
  have h := foldl_add_eq_sum_n (fun img => Mahalanobis.maskCount img c) imgs 0
  rw [length_filter_concatAll]
  simp only [Mahalanobis.pixel_count_per_class]
  rw [h]
  simp only [maskCount_eq, zero_add]

theorem imageScatter_eq (mean : Nat → Mahalanobis.Vec) (img : Mahalanobis.Image)
    (i j : Fin Mahalanobis.NUM_CLASSES) :
    Mahalanobis.imageScatter mean img i j =
      ((List.range Mahalanobis.NUM_CLASSES).map
        fun c => Mahalanobis.classScatter mean img c i j).sum := by
  have h := foldl_add_eq_sum_q (fun c => Mahalanobis.classScatter mean img c i j)
    (List.range Mahalanobis.NUM_CLASSES) 0
  simpa [Mahalanobis.imageScatter] using h

theorem covAccum_eq (mean : Nat → Mahalanobis.Vec) (imgs : List Mahalanobis.Image)
    (i j : Fin Mahalanobis.NUM_CLASSES) :
    Mahalanobis.covAccum mean imgs i j =
      (imgs.map fun img => Mahalanobis.imageScatter mean img i j).sum := by
  have h := foldl_add_eq_sum_q (fun img => Mahalanobis.imageScatter mean img i j) imgs 0
  simpa [Mahalanobis.covAccum] using h

/-! ### Lemmas about the class-weight estimator -/

theorem class_count_eq (batches : List (List Nat)) (k : Nat) :
    Train.class_count batches k = (concatAll batches).count k := by
  have h := foldl_add_eq_sum_n (fun b => b.count k) batches 0
  rw [count_concatAll]
  simp only [Train.class_count]
  simpa using h

theorem total_pixels_eq (batches : List (List Nat)) :
    Train.total_pixels batches = (concatAll batches).length := by
  have h := foldl_add_eq_sum_n (fun b : List Nat => b.length) batches 0
  rw [length_concatAll]
  simp only [Train.total_pixels]
  simpa using h



/-! ### Claim theorems -/

/-- Claim C1 (code_bug evaluation): every run started with resume requested
and an existing rolling checkpoint fails with UnboundLocalError when the
resume block reads the optimizer local (src/train/main.py line 185), which
is only assigned later (lines 204-210); the orchestrator therefore never
restores the optimizer state nor reaches the epoch loop. -/
theorem c1_resume_unbound_optimizer (ck : Train.Checkpoint) (w : Train.StateDict) :
    Train.trainPrologue true (some ck) w =
      Except.error "UnboundLocalError: local variable optimizer referenced before assignment" :=
  rfl

/-- Claim C2 (code_bug evaluation): weight reconciliation does raise on a
partial match.  For a source name present in the target with a mismatched,
non-broadcastable shape and not a final/output-layer name, the code prints
the mismatch but falls through to Tensor.copy_, which raises. -/
theorem c2_shape_mismatch_raises :
    Train.load_my_state_dict [("layer.weight", [0, 0, 0, 0, 0])] [("layer.weight", [1, 2, 3])] =
      Except.error "RuntimeError: size of tensor a must match size of tensor b" := by
  rfl

/-- Claim C3 counterexample: with IoU evaluation enabled and the epoch's
computed validation IoU equal to 0 (average validation loss 1), the metric
compared against the stored best is not the validation IoU. -/
theorem c3_counterexample : ¬ Train.current_acc true 0 [1] = Train.iouValOf true 0 := by
  norm_num [Train.current_acc, Train.iouValOf, Train.average_epoch_loss]

/-- Claim C3 (amended): at the end of every epoch the metric compared
against the stored best is the epoch's validation IoU whenever IoU
evaluation is enabled and the computed IoU is nonzero, and the negative of
the epoch's average validation loss whenever IoU evaluation is disabled or
the computed IoU equals zero. -/
theorem c3_metric_amended (doIouVal : Bool) (computedIoU : ℚ) (valLosses : List ℚ) :
    (doIouVal = true → computedIoU ≠ 0 →
      Train.current_acc doIouVal computedIoU valLosses = computedIoU) ∧
    (doIouVal = false ∨ computedIoU = 0 →
      Train.current_acc doIouVal computedIoU valLosses =
        - Train.average_epoch_loss valLosses) := by
  constructor
  · intro hb hne
    subst hb
    simp [Train.current_acc, Train.iouValOf, hne]
  · intro h
    rcases h with hb | hz
    · subst hb
      simp [Train.current_acc, Train.iouValOf]
    · subst hz
      cases doIouVal <;> simp [Train.current_acc, Train.iouValOf]

/-- Witness for the amended claim C3 at concrete inputs. -/
theorem c3_metric_amended_witness :
    Train.current_acc true (1 / 2) [3] = 1 / 2 ∧
    Train.current_acc false (1 / 2) [3] = - Train.average_epoch_loss [3] := by
  constructor
  · exact (c3_metric_amended true (1 / 2) [3]).1 rfl (by norm_num)
  · exact (c3_metric_amended false (1 / 2) [3]).2 (Or.inl rfl)

/-- Claim C4: at the end of every epoch the rolling checkpoint is always
overwritten with the fresh state, the best checkpoint is overwritten exactly
when the current metric strictly exceeds the stored best, the stored best
metric becomes the max of the two, and on a tie both the best checkpoint
and the stored best metric are left unchanged. -/
theorem c4_best_checkpoint_update (acc best : ℚ) (epoch : Nat) (w : Train.StateDict)
    (opt : Nat) (fs : Train.SaveState) :
    (Train.epochEndCheckpoint acc best epoch w opt fs).2.rolling =
      some { epoch := epoch + 1, state_dict := w, best_acc := max acc best,
             optimizerState := opt } ∧
    (Train.epochEndCheckpoint acc best epoch w opt fs).2.best =
      (if best < acc then
        some { epoch := epoch + 1, state_dict := w, best_acc := max acc best,
               optimizerState := opt }
       else fs.best) ∧
    (Train.epochEndCheckpoint acc best epoch w opt fs).1 = max acc best ∧
    (acc = best →
      (Train.epochEndCheckpoint acc best epoch w opt fs).2.best = fs.best ∧
      (Train.epochEndCheckpoint acc best epoch w opt fs).1 = best) := by
  refine ⟨rfl, ?_, rfl, ?_⟩
  · by_cases h : best < acc <;>
      simp [Train.epochEndCheckpoint, Train.save_checkpoint, h]
  · intro h
    subst h
    simp [Train.epochEndCheckpoint, Train.save_checkpoint, lt_irrefl]

/-- Witness for claim C4: a tie (current metric 1, stored best 1) leaves the
best checkpoint file and the stored best metric unchanged. -/
theorem c4_best_checkpoint_update_witness :
    (Train.epochEndCheckpoint 1 1 3 [] 0
        { rolling := none,
          best := some { epoch := 1, state_dict := [], best_acc := 1, optimizerState := 0 } }).2.best =
      some { epoch := 1, state_dict := [], best_acc := 1, optimizerState := 0 } ∧
    (Train.epochEndCheckpoint 1 1 3 [] 0
        { rolling := none,
          best := some { epoch := 1, state_dict := [], best_acc := 1, optimizerState := 0 } }).1 = 1 :=
  (c4_best_checkpoint_update 1 1 3 [] 0
    { rolling := none,
      best := some { epoch := 1, state_dict := [], best_acc := 1, optimizerState := 0 } }).2.2.2 rfl

/-- Claim C9 (code_bug evaluation): the periodic-snapshot condition tests
the leftover validation batch index, not the epoch.  With interval 2 and a
validation loader of 2 batches (last index 1) no snapshot is written at
epoch 2 although 2 is a multiple of 2; with 3 batches (last index 2) a
snapshot is written at every epoch, including epoch 1, which is not a
multiple of 2. -/
theorem c9_snapshot_ignores_epoch :
    Train.snapshot_saved 2 2 = false ∧ Train.snapshot_saved 2 3 = true ∧
      2 % 2 = 0 ∧ 1 % 2 ≠ 0 := by
  exact ⟨rfl, rfl, rfl, by decide⟩

/-- Claim C10: in one invocation of the statistics program exactly one phase
runs (the covariance pass precisely when a precomputed-mean path is given),
the covariance accumulator and the loaded per-class means are placed on the
CUDA device regardless of the CPU-only flag, so with the CPU-only flag the
covariance loop body fails with a device mismatch, while the mean pass keeps
its accumulators on the device selected by the flag and completes. -/
theorem c10_phase_and_devices (a : Mahalanobis.Args) :
    (Mahalanobis.phase a = Mahalanobis.Phase.covPass ↔ Mahalanobis.mean_is_computed a = true) ∧
    (Mahalanobis.phase a = Mahalanobis.Phase.meanPass ↔ Mahalanobis.mean_is_computed a = false) ∧
    Mahalanobis.cov_matrix_device = Mahalanobis.Device.cuda ∧
    Mahalanobis.pre_computed_mean_device = Mahalanobis.Device.cuda ∧
    (a.cpu = true →
      Mahalanobis.covPassStep a =
        Except.error "Expected all tensors to be on the same device") ∧
    (a.cpu = true → Mahalanobis.meanPassStep a = Except.ok Mahalanobis.Device.cpu) ∧
    (a.cpu = false → Mahalanobis.meanPassStep a = Except.ok Mahalanobis.Device.cuda ∧
      Mahalanobis.covPassStep a = Except.ok Mahalanobis.Device.cuda) := by
  refine ⟨?_, ?_, rfl, rfl, ?_, ?_, ?_⟩
  · cases h : Mahalanobis.mean_is_computed a <;> simp [Mahalanobis.phase, h]
  · cases h : Mahalanobis.mean_is_computed a <;> simp [Mahalanobis.phase, h]
  · intro h
    simp [Mahalanobis.covPassStep, Mahalanobis.sameDevice, Mahalanobis.model_device,
      Mahalanobis.pre_computed_mean_device, h]
  · intro h
    simp [Mahalanobis.meanPassStep, Mahalanobis.sameDevice, Mahalanobis.acc_device,
      Mahalanobis.model_device, h]
  · intro h
    constructor
    · simp [Mahalanobis.meanPassStep, Mahalanobis.sameDevice, Mahalanobis.acc_device,
        Mahalanobis.model_device, h]
    · simp [Mahalanobis.covPassStep, Mahalanobis.sameDevice, Mahalanobis.model_device,
        Mahalanobis.pre_computed_mean_device, Mahalanobis.cov_matrix_device, h]

/-- Witness for claim C10 with the CPU-only flag set: the covariance loop
body raises a device mismatch while the mean loop body stays on the CPU. -/
theorem c10_phase_and_devices_witness :
    Mahalanobis.covPassStep { cpu := true, mean := "m" } =
      Except.error "Expected all tensors to be on the same device" ∧
    Mahalanobis.meanPassStep { cpu := true, mean := "m" } =
      Except.ok Mahalanobis.Device.cpu :=
  ⟨(c10_phase_and_devices { cpu := true, mean := "m" }).2.2.2.2.1 rfl,
   (c10_phase_and_devices { cpu := true, mean := "m" }).2.2.2.2.2.1 rfl⟩


/-- Claim C5: a source weight whose name is recognized as a final/output
layer name, found in the target with a source shape strictly smaller than
the target shape, is reconciled into a target-shaped tensor that carries
the source values unchanged in its leading slice and is zero everywhere
else. -/
theorem c5_output_layer_grow (own : Train.StateDict) (name : String) (param tgt : List ℚ)
    (hfind : Train.sdFind own name = some tgt)
    (hout : Train.isOutputLayerName name = true)
    (hlt : param.length < tgt.length) :
    Train.loadStep own (name, param) =
      Except.ok (Train.sdUpdate own name
        (param ++ List.replicate (tgt.length - param.length) 0)) ∧
    (param ++ List.replicate (tgt.length - param.length) 0).take param.length = param ∧
    (param ++ List.replicate (tgt.length - param.length) 0).drop param.length =
      List.replicate (tgt.length - param.length) 0 ∧
    (param ++ List.replicate (tgt.length - param.length) 0).length = tgt.length := by
  have hle : param.length ≤ tgt.length := hlt.le
  have hlen : (param ++ List.replicate (tgt.length - param.length) (0 : ℚ)).length = tgt.length := by
    simp
    omega
  refine ⟨?_, ?_, ?_, hlen⟩
  · simp only [Train.loadStep, hfind, hout, if_true]
    rw [if_pos hle]
    simp [Train.copyTensor, hlen]
  · simp
  · simp

/-- Witness for claim C5: growing a 1-entry output bias into a 3-entry
target yields the source value followed by zeros. -/
theorem c5_output_layer_grow_witness :
    Train.sdFind [("d.conv_out.conv_out.bias", [5, 5, 5])] "d.conv_out.conv_out.bias" =
      some [5, 5, 5] ∧
    Train.isOutputLayerName "d.conv_out.conv_out.bias" = true ∧
    ([(7 : ℚ)] : List ℚ).length < ([5, 5, 5] : List ℚ).length ∧
    Train.loadStep [("d.conv_out.conv_out.bias", [5, 5, 5])] ("d.conv_out.conv_out.bias", [7]) =
      Except.ok [("d.conv_out.conv_out.bias", [7, 0, 0])] := by
  refine ⟨rfl, rfl, by decide, ?_⟩
  have h := c5_output_layer_grow [("d.conv_out.conv_out.bias", [5, 5, 5])]
    "d.conv_out.conv_out.bias" [7] [5, 5, 5] rfl rfl (by decide)
  rw [h.1]
  rfl

/-- Claim C6: after the mean pass, every class with at least one labeled
pixel gets exactly the arithmetic mean of the feature vectors at the pixels
labeled with it (the streaming per-image accumulation pooled over the whole
dataset), and every class with zero labeled pixels keeps an all-zero mean,
the division never being performed for a zero count. -/
theorem c6_per_class_mean (imgs : List Mahalanobis.Image) (c : Nat)
    (hc : c < Mahalanobis.NUM_CLASSES) :
    (0 < Mahalanobis.pixel_count_per_class imgs c →
      ∀ i, Mahalanobis.meanPerClass imgs c i =
        (((concatAll imgs).filter fun p => p.1 == c).map fun p => p.2 i).sum /
          ((((concatAll imgs).filter fun p => p.1 == c).length : ℚ))) ∧
    (Mahalanobis.pixel_count_per_class imgs c = 0 →
      ∀ i, Mahalanobis.meanPerClass imgs c i = 0) := by
  constructor
  · intro hpos i
    simp only [Mahalanobis.meanPerClass, if_pos hpos]
    rw [sum_per_class_eq, pixel_count_eq]
  · intro h0 i
    simp only [Mahalanobis.meanPerClass, if_neg (by omega : ¬ 0 < Mahalanobis.pixel_count_per_class imgs c)]
    rw [sum_per_class_eq]
    have hnil : ((concatAll imgs).filter fun p => p.1 == c) = [] := by
      have := pixel_count_eq imgs c
      rw [h0] at this
      exact List.length_eq_zero.mp this.symm
    simp [hnil]

/-- Witness for claim C6: two one-pixel images of class 0 with constant
feature vectors 2 and 4 give mean 3 in every channel. -/
theorem c6_per_class_mean_witness :
    (0 : Nat) < Mahalanobis.NUM_CLASSES ∧
    0 < Mahalanobis.pixel_count_per_class exImgsC6 0 ∧
    (∀ i, Mahalanobis.meanPerClass exImgsC6 0 i =
      (((concatAll exImgsC6).filter fun p => p.1 == 0).map fun p => p.2 i).sum /
        (((concatAll exImgsC6).filter fun p => p.1 == 0).length : ℚ)) := by
  refine ⟨by decide, by decide, ?_⟩
  exact (c6_per_class_mean exImgsC6 0 (by decide)).1 (by decide)

/-- Claim C7: the covariance pass pools every class's centered scatter into
the one shared accumulator, and the final matrix divides that pooled sum by
the fixed per-image pixel count 512 * 1024 times the number of images, not
by per-class pixel counts. -/
theorem c7_pooled_covariance (mean : Nat → Mahalanobis.Vec) (imgs : List Mahalanobis.Image)
    (i j : Fin Mahalanobis.NUM_CLASSES) :
    Mahalanobis.cov_matrix mean imgs i j =
      ((List.range Mahalanobis.NUM_CLASSES).map fun c =>
        (((concatAll imgs).filter fun p => p.1 == c).map
          fun p => (p.2 i - mean c i) * (p.2 j - mean c j)).sum).sum /
        ((imgs.length : ℚ) * 512 * 1024) := by
  simp only [Mahalanobis.cov_matrix]
  congr 1
  rw [covAccum_eq]
  simp only [imageScatter_eq]
  rw [sum_swap_q]
  simp only [Mahalanobis.classScatter]
  congr 1
  apply List.map_congr_left
  intro c _
  exact (sum_filter_concatAll imgs (fun p => p.1 == c)
    (fun p => (p.2 i - mean c i) * (p.2 j - mean c j))).symm


/-- Claim C8: the class-weight estimator returns, for every class k, the
weight 1 / ln(c + count_k / total) where count_k and total are the pooled
pixel counts of the whole loader traversal, and a class with strictly fewer
labeled pixels than another receives a strictly larger weight. -/
theorem c8_class_weights (batches : List (List Nat)) (c : ℝ) (hc : 1 < c) :
    (∀ k, Train.calculate_class_weights batches c k =
      1 / Real.log (c + ((concatAll batches).count k : ℝ) / ((concatAll batches).length : ℝ))) ∧
    (∀ j k, (concatAll batches).count j < (concatAll batches).count k →
      Train.calculate_class_weights batches c k < Train.calculate_class_weights batches c j) := by
  have heq : ∀ k, Train.calculate_class_weights batches c k =
      1 / Real.log (c + ((concatAll batches).count k : ℝ) / ((concatAll batches).length : ℝ)) := by
    intro k
    simp only [Train.calculate_class_weights, class_count_eq, total_pixels_eq]
  refine ⟨heq, ?_⟩
  intro j k hjk
  rw [heq j, heq k]
  have hkpos : 0 < (concatAll batches).count k := lt_of_le_of_lt (Nat.zero_le _) hjk
  have hlen : 0 < (concatAll batches).length :=
    lt_of_lt_of_le hkpos (List.count_le_length k (concatAll batches))
  have hlenR : (0 : ℝ) < ((concatAll batches).length : ℝ) := by exact_mod_cast hlen
  have hjkR : ((concatAll batches).count j : ℝ) < ((concatAll batches).count k : ℝ) := by
    exact_mod_cast hjk
  have hpj : (0 : ℝ) ≤ ((concatAll batches).count j : ℝ) / ((concatAll batches).length : ℝ) :=
    div_nonneg (Nat.cast_nonneg _) hlenR.le
  have hplt : ((concatAll batches).count j : ℝ) / ((concatAll batches).length : ℝ) <
      ((concatAll batches).count k : ℝ) / ((concatAll batches).length : ℝ) := by
    gcongr
  have h1j : 1 < c + ((concatAll batches).count j : ℝ) / ((concatAll batches).length : ℝ) :=
    lt_of_lt_of_le hc (le_add_of_nonneg_right hpj)
  have hlogpos : 0 < Real.log
      (c + ((concatAll batches).count j : ℝ) / ((concatAll batches).length : ℝ)) :=
    Real.log_pos h1j
  have hloglt : Real.log
        (c + ((concatAll batches).count j : ℝ) / ((concatAll batches).length : ℝ)) <
      Real.log (c + ((concatAll batches).count k : ℝ) / ((concatAll batches).length : ℝ)) :=
    Real.log_lt_log (by linarith) (by linarith)
  exact one_div_lt_one_div_of_lt hlogpos hloglt

/-- Witness for claim C8: on the two-batch stream with labels 0,1,1 and 1,
class 0 has 1 pixel, class 1 has 3, and the class-0 weight is strictly
larger. -/
theorem c8_class_weights_witness :
    (1 : ℝ) < 2 ∧ (concatAll [[0, 1, 1], [1]]).count 0 < (concatAll [[0, 1, 1], [1]]).count 1 ∧
    Train.calculate_class_weights [[0, 1, 1], [1]] 2 1 <
      Train.calculate_class_weights [[0, 1, 1], [1]] 2 0 := by
  refine ⟨by norm_num, by decide, ?_⟩
  exact (c8_class_weights [[0, 1, 1], [1]] 2 (by norm_num)).2 0 1 (by decide)
end Spec2Proof
